import Mathlib

/-!
Shallow embedding of the `orgish` document engine (Org/Markdown outline parser,
timestamp engine and serializer) together with proofs about the properties of
its specification.

The embedding translates the Rust sources:
  * `src/timestamp.rs`   — timestamp data model, parsing, printing, repeat queries;
  * `src/heading_parser.rs` — the heading tokenizer (`Node::from_heading_str`);
  * `src/parser.rs`      — the document-level state machine (`Document::from_str`);
  * `src/into_format.rs` — the serializer (`Node::into_string` et al.);
  * `src/lib.rs`         — the node tree (`Node`, `Planning`, `Properties`, ...).

Conventions used throughout:
  * Rust `usize`/`u8`/`u32` values are `Nat`; Rust `i32`/`i64` values are `Int`.
    Where Rust casts a guaranteed-nonnegative signed value to unsigned (`as usize`,
    `as u64`), the embedding uses `Int.toNat`.
  * `chrono::NaiveDate` is modelled as its day number relative to 1970-01-01
    (the proleptic Gregorian calendar); the calendar accessors and constructors
    implement the standard civil-calendar conversions.  Date comparison,
    `Duration` addition and `num_days` subtraction act on the day number.
  * Rust code that can panic (an `unwrap()` of `None`, `unreachable!()`) is
    modelled by the `PanicOr` wrapper: `.panic` marks exactly the program points
    where the Rust code aborts rather than returning.
  * `Result<T, E>` is `Except E T`; `Option<T>` is `Option T`.
-/

namespace Orgish

/-! ## Basic string/list helpers (models of the Rust std functions used) -/

/-- Model of `Vec::join` / `[T]::join` on strings. -/
def joinWith (sep : String) : List String → String
  | [] => ""
  | [x] => x
  | x :: y :: xs => x ++ sep ++ joinWith sep (y :: xs)

/-- Whitespace test used by `str::trim` (the inputs in scope are ASCII). -/
def isWs (c : Char) : Bool := c = ' ' || c = '\t' || c = '\n' || c = '\r'

/-- Model of `str::trim` on a character list. -/
def trimChars (cs : List Char) : List Char :=
  ((cs.dropWhile isWs).reverse.dropWhile isWs).reverse

/-- Model of `str::trim` on strings. -/
def trimStr (s : String) : String := String.mk (trimChars s.data)

/-- Does `pat` occur contiguously inside `cs`?  Model of `str::contains`. -/
def containsSeq (cs pat : List Char) : Bool :=
  match cs with
  | [] => pat.isPrefixOf []
  | _ :: rest => pat.isPrefixOf cs || containsSeq rest pat

/-- Split at the first occurrence of `pat`, dropping the separator: the model of
`str::splitn(2, pat)` when `pat` is known to occur. -/
def splitFirstSeq (cs pat : List Char) : List Char × List Char :=
  match cs with
  | [] => ([], [])
  | c :: rest =>
    if pat.isPrefixOf cs then ([], cs.drop pat.length)
    else
      let (l, r) := splitFirstSeq rest pat
      (c :: l, r)

/-- Split on every occurrence of a separator character; model of `str::split(c)`. -/
def splitChar (sep : Char) (cs : List Char) : List (List Char) :=
  match cs with
  | [] => [[]]
  | c :: rest =>
    let parts := splitChar sep rest
    if c = sep then [] :: parts
    else
      match parts with
      | [] => [[c]]
      | p :: ps => (c :: p) :: ps

/-- Split a line at its first `:`, as `str::splitn(2, ':')` does; `none` when the
character does not occur (one part in Rust). -/
def splitFirstColon (cs : List Char) : Option (List Char × List Char) :=
  if containsSeq cs [':'] then some (splitFirstSeq cs [':']) else none

/-- Digits-only numeral parser: the model of `str::parse::<u32>` / `parse::<usize>`
restricted to the digit strings that occur here (a leading `+` is also accepted
by Rust; the scanners in scope only ever produce plain digit runs). -/
def parseNat? (cs : List Char) : Option Nat :=
  if cs.isEmpty || !cs.all Char.isDigit then none
  else some (cs.foldl (fun acc c => acc * 10 + (c.toNat - '0'.toNat)) 0)

/-- Model of `str::parse::<i32>`: an optional sign followed by digits. -/
def parseInt? (cs : List Char) : Option Int :=
  match cs with
  | '-' :: rest => (parseNat? rest).map (fun n => -(n : Int))
  | '+' :: rest => (parseNat? rest).map (fun n => (n : Int))
  | _ => (parseNat? cs).map (fun n => (n : Int))

/-- Model of `str::starts_with` on a string pattern. -/
def strStartsWith (s pre : String) : Bool := pre.data.isPrefixOf s.data

/-- Model of `Option::is_some_and`. -/
def isSomeAnd (o : Option α) (f : α → Bool) : Bool :=
  match o with
  | some a => f a
  | none => false

/-- Explicit marker for the program points where the Rust code panics (a failed
`unwrap()` or an `unreachable!()`); every result that can pass through such a
point is wrapped in this type. -/
inductive PanicOr (α : Type _) where
  | panic
  | val (a : α)
deriving DecidableEq

deriving instance DecidableEq for Except

/-! ## Calendar arithmetic: the model of `chrono::NaiveDate`

A date is represented by its signed day number relative to 1970-01-01.  The
conversions to and from `(year, month, day)` triples implement the standard
civil-from-days / days-from-civil algorithms for the proleptic Gregorian
calendar, which is the calendar `chrono` implements. -/

/-- Gregorian leap-year test. -/
def isLeapYear (y : Int) : Bool := y % 4 = 0 && (y % 100 ≠ 0 || y % 400 = 0)

/-- Number of days in the given month of the given year. -/
def daysInMonth (y : Int) (m : Nat) : Nat :=
  if m = 2 then (if isLeapYear y then 29 else 28)
  else if m = 4 || m = 6 || m = 9 || m = 11 then 30
  else 31

/-- Day number (relative to 1970-01-01) of the civil date `y-m-d`. -/
def daysFromCivil (y : Int) (m d : Nat) : Int :=
  let y' : Int := if m ≤ 2 then y - 1 else y
  let era : Int := (if 0 ≤ y' then y' else y' - 399) / 400
  let yoe : Nat := (y' - era * 400).toNat
  let doy : Nat := (153 * (if 2 < m then m - 3 else m + 9) + 2) / 5 + d - 1
  let doe : Nat := yoe * 365 + yoe / 4 - yoe / 100 + doy
  era * 146097 + (doe : Int) - 719468

/-- Civil date `(y, m, d)` of a day number. -/
def civilFromDays (z : Int) : Int × Nat × Nat :=
  let z' := z + 719468
  let era : Int := (if 0 ≤ z' then z' else z' - 146096) / 146097
  let doe : Nat := (z' - era * 146097).toNat
  let yoe : Nat := (doe - doe / 1460 + doe / 36524 - doe / 146096) / 365
  let y : Int := (yoe : Int) + era * 400
  let doy : Nat := doe - (365 * yoe + yoe / 4 - yoe / 100)
  let mp : Nat := (5 * doy + 2) / 153
  let d : Nat := doy - (153 * mp + 2) / 5 + 1
  let m : Nat := if mp < 10 then mp + 3 else mp - 9
  (if m ≤ 2 then y + 1 else y, m, d)

/-- Model of `chrono::NaiveDate`: a day is identified by its day number. -/
structure NaiveDate where
  days : Int
deriving DecidableEq

namespace NaiveDate

/-- Civil triple of a date. -/
def ymd (dt : NaiveDate) : Int × Nat × Nat := civilFromDays dt.days

/-- Model of `NaiveDate::year`. -/
def year (dt : NaiveDate) : Int := dt.ymd.1

/-- Model of `NaiveDate::month` (1-based). -/
def month (dt : NaiveDate) : Nat := dt.ymd.2.1

/-- Model of `NaiveDate::day` (1-based). -/
def day (dt : NaiveDate) : Nat := dt.ymd.2.2

/-- Model of `NaiveDate::month0` (0-based). -/
def month0 (dt : NaiveDate) : Nat := dt.month - 1

/-- Model of `NaiveDate::day0` (0-based). -/
def day0 (dt : NaiveDate) : Nat := dt.day - 1

/-- Model of `Datelike::year_ce().1`: the year as an unsigned CE year. -/
def yearCE (dt : NaiveDate) : Nat :=
  if 0 < dt.year then dt.year.toNat else (1 - dt.year).toNat

/-- Model of `NaiveDate::from_ymd_opt`: `none` exactly on invalid civil triples. -/
def fromYmd? (y : Int) (m d : Nat) : Option NaiveDate :=
  if 1 ≤ m && m ≤ 12 && 1 ≤ d && d ≤ daysInMonth y m then
    some ⟨daysFromCivil y m d⟩
  else none

/-- Model of `date + Duration::days(n)`. -/
def addDays (dt : NaiveDate) (n : Int) : NaiveDate := ⟨dt.days + n⟩

/-- Model of `(a - b).num_days()`. -/
def sub (a b : NaiveDate) : Int := a.days - b.days

/-- Model of `NaiveDate::with_day0`. -/
def withDay0 (dt : NaiveDate) (d0 : Nat) : Option NaiveDate :=
  fromYmd? dt.year dt.month (d0 + 1)

/-- Model of `NaiveDate::with_month0` (keeping the day; `none` when invalid). -/
def withMonth0 (dt : NaiveDate) (m0 : Nat) : Option NaiveDate :=
  fromYmd? dt.year (m0 + 1) dt.day

/-- Three-letter day name, as produced by chrono's `%a` (1970-01-01 was a
Thursday). -/
def dayName (dt : NaiveDate) : String :=
  match ((dt.days + 4) % 7).toNat with
  | 0 => "Sun"
  | 1 => "Mon"
  | 2 => "Tue"
  | 3 => "Wed"
  | 4 => "Thu"
  | 5 => "Fri"
  | _ => "Sat"

end NaiveDate

/-- Zero-pad a numeral to two digits (chrono's `%m`/`%d`/`%H`/`%M`). -/
def pad2 (n : Nat) : String := if n < 10 then "0" ++ toString n else toString n

/-- Zero-pad a year to four digits (chrono's `%Y` for the CE years in scope). -/
def pad4 (y : Int) : String :=
  if 0 ≤ y then
    let n := y.toNat
    if n < 10 then "000" ++ toString n
    else if n < 100 then "00" ++ toString n
    else if n < 1000 then "0" ++ toString n
    else toString n
  else "-" ++ toString (-y)

/-- Model of `date.format("%Y-%m-%d")`. -/
def NaiveDate.formatYmd (dt : NaiveDate) : String :=
  pad4 dt.year ++ "-" ++ pad2 dt.month ++ "-" ++ pad2 dt.day

/-- Model of `date.format("%Y-%m-%d %a")`. -/
def NaiveDate.formatYmdDow (dt : NaiveDate) : String :=
  dt.formatYmd ++ " " ++ dt.dayName

/-- Model of `chrono::NaiveTime` restricted to the hour/minute precision the
engine uses (`%H:%M`). -/
structure NaiveTime where
  hour : Nat
  minute : Nat
deriving DecidableEq

/-- Model of `time.format("%H:%M")`. -/
def NaiveTime.format (t : NaiveTime) : String := pad2 t.hour ++ ":" ++ pad2 t.minute

/-- Model of `NaiveTime::parse_from_str(s, "%H:%M")`: one or two digits of hour,
a colon, one or two digits of minute, nothing else. -/
def NaiveTime.parse? (cs : List Char) : Option NaiveTime :=
  match splitChar ':' cs with
  | [hs, ms] =>
    if hs.length = 0 || 2 < hs.length || ms.length = 0 || 2 < ms.length then none
    else match parseNat? hs, parseNat? ms with
      | some h, some m => if h ≤ 23 && m ≤ 59 then some ⟨h, m⟩ else none
      | _, _ => none
  | _ => none

/-! ## The timestamp engine (`src/timestamp.rs`) -/

/-- The different units for repeaters (`RepeaterUnit`). -/
inductive RepeaterUnit where
  | day
  | week
  | month
  | year
deriving DecidableEq

/-- Model of `RepeaterUnit::from_char`. -/
def RepeaterUnit.fromChar (c : Char) : Option RepeaterUnit :=
  match c with
  | 'd' => some .day
  | 'w' => some .week
  | 'm' => some .month
  | 'y' => some .year
  | _ => none

/-- Model of `RepeaterUnit::into_char`. -/
def RepeaterUnit.intoChar : RepeaterUnit → Char
  | .day => 'd'
  | .week => 'w'
  | .month => 'm'
  | .year => 'y'

/-- The repeater in a timestamp (e.g. `+1w`).  The `count` is a Rust `usize`;
the spec's data model (§3) requires it to be positive. -/
structure Repeater where
  count : Nat
  unit : RepeaterUnit
deriving DecidableEq

/-- Model of `Repeater::into_string` (e.g. `+10d`). -/
def Repeater.intoString (r : Repeater) : String :=
  "+" ++ toString r.count ++ String.mk [r.unit.intoChar]

/-- An abstraction over dates and times where the times are optional
(`DateTime`). -/
structure DateTime where
  date : NaiveDate
  time : Option NaiveTime
deriving DecidableEq

/-- An Org mode-style timestamp (`Timestamp`).  The Rust field `end` is named
`ending` here because `end` is a Lean keyword. -/
structure Timestamp where
  start : DateTime
  ending : Option DateTime
  repeater : Option Repeater
  active : Bool
deriving DecidableEq

/-- Model of `in_range_mod` from `timestamp.rs`: is `x` within `[start, end]`
modulo `c`, and at which modulus place?  The Rust second component is a `u64`
(`normalised as u64`); it is kept as a nonnegative `Int` here.  The `%` is only
reached with `x ≥ 0`, where Rust's `i64 %` and `Int.emod` agree; Rust panics
when `c = 0` (division by zero), a case excluded by the spec's requirement that
repeater counts be positive. -/
def inRangeMod (x : Int) (se : Int × Option Int) (c : Nat) : Bool × Int :=
  if x < 0 || isSomeAnd se.2 (fun e => e < 0) then (false, 0)
  else
    let normalised := x % (c : Int)
    match se.2 with
    | some e => (decide (se.1 ≤ normalised) && decide (normalised ≤ e), normalised)
    | none => (decide (normalised = 0), normalised)

/-- Months-since-year-0 count used by the month branch of `includes_date`:
`date.year_ce().1 * 12 + date.month0()`, a `u32` cast to `i64`. -/
def monthsCount (d : NaiveDate) : Int := ((d.yearCE * 12 + d.month0 : Nat) : Int)

/-- Month-and-day ordinal used by the year branches:
`date.month0() * 100 + date.day0()`. -/
def mdOrdinal (d : NaiveDate) : Nat := d.month0 * 100 + d.day0

/-- Model of `Timestamp::includes_date`: whether this timestamp, or any of its
subsequent repeats, falls on the given date.  The two `(end - start) as u64 ==
v` comparisons of the source are modelled as `Int` equalities: the `u64` wrap
of a negative `i64` difference exceeds every possible `normalised` value, so
the comparisons agree.  The `.unwrap()`s on `self.end` in the month/year
branches are guarded by `is_some_and` checks on the same option and are
modelled by `getD` with an unreachable default. -/
def Timestamp.includesDate (ts : Timestamp) (date : NaiveDate) : Bool :=
  match ts.repeater with
  | some repeater =>
    match repeater.unit with
    | .day =>
      let endD : Option Int := ts.ending.map (fun dt => dt.date.sub ts.start.date)
      let target : Int := date.sub ts.start.date
      (inRangeMod target (0, endD) repeater.count).1
    | .week =>
      let endD : Option Int := ts.ending.map (fun dt => dt.date.sub ts.start.date)
      let target : Int := date.sub ts.start.date
      (inRangeMod target (0, endD) (repeater.count * 7)).1
    | .month =>
      let startMonths : Int := monthsCount ts.start.date
      let endMonths : Option Int := ts.ending.map (fun e => monthsCount e.date)
      let targetMonths : Int := monthsCount date
      let p := inRangeMod (targetMonths - startMonths)
        (0, endMonths.map (fun n => n - startMonths)) repeater.count
      if p.1 then
        if p.2 = 0 then
          let startDay := ts.start.date.day0
          let targetDay := date.day0
          if isSomeAnd endMonths (fun e => e - startMonths = 0) then
            let endDay := (ts.ending.map (fun e => e.date.day0)).getD 0
            startDay ≤ targetDay && targetDay ≤ endDay
          else
            decide (startDay ≤ targetDay)
        else if isSomeAnd endMonths (fun e => e - startMonths = p.2) then
          let endDay := (ts.ending.map (fun e => e.date.day0)).getD 0
          decide (date.day0 ≤ endDay)
        else true
      else false
    | .year =>
      let startYears : Int := (ts.start.date.yearCE : Int)
      let endYears : Option Int := ts.ending.map (fun e => (e.date.yearCE : Int))
      let targetYears : Int := (date.yearCE : Int)
      let p := inRangeMod (targetYears - startYears)
        (0, endYears.map (fun n => n - startYears)) repeater.count
      if p.1 then
        if p.2 = 0 then
          let startOrdinal := mdOrdinal ts.start.date
          let targetOrdinal := mdOrdinal date
          if isSomeAnd endYears (fun e => e - startYears = 0) then
            let endOrdinal := (ts.ending.map (fun e => mdOrdinal e.date)).getD 0
            startOrdinal ≤ targetOrdinal && targetOrdinal ≤ endOrdinal
          else
            decide (startOrdinal ≤ targetOrdinal)
        else if isSomeAnd endYears (fun e => e - startYears = p.2) then
          let endOrdinal := (ts.ending.map (fun e => mdOrdinal e.date)).getD 0
          decide (mdOrdinal date ≤ endOrdinal)
        else true
      else false
  | none =>
    match ts.ending with
    | some e => decide (ts.start.date.days ≤ date.days) && decide (date.days ≤ e.date.days)
    | none => decide (date = ts.start.date)

/-- Model of `Timestamp::get_next_repeat`: the next date on or after
`afterDate` on which the timestamp repeats (`none` when there is no repeater).
The `.unwrap()` on `from_ymd_opt` in the month branch and the `.unwrap()`s of
the year branch's `with_day0`/`with_month0` chain are genuine panic points of
the source and are modelled as `.panic`.  Rust panics on a zero repeater count
(division by zero); the spec's data model requires a positive count, which the
theorems below assume. -/
def Timestamp.getNextRepeat (ts : Timestamp) (afterDate : NaiveDate) :
    PanicOr (Option NaiveDate) :=
  let date := ts.start.date
  if afterDate.days < date.days then .val (some date)
  else
    match ts.repeater with
    | none => .val none
    | some repeater =>
      match repeater.unit with
      | .day =>
        let daysDiff : Nat := (afterDate.sub date).toNat
        if daysDiff % repeater.count = 0 then .val (some afterDate)
        else
          let numCompletedRepeats := daysDiff / repeater.count
          .val (some (date.addDays ((repeater.count * (numCompletedRepeats + 1) : Nat) : Int)))
      | .week =>
        let repeaterDaysCount := repeater.count * 7
        let daysDiff : Nat := (afterDate.sub date).toNat
        if daysDiff % repeaterDaysCount = 0 then .val (some afterDate)
        else
          let numCompletedRepeats := daysDiff / repeaterDaysCount
          .val (some (date.addDays ((repeaterDaysCount * (numCompletedRepeats + 1) : Nat) : Int)))
      | .month =>
        let dateMonths : Nat := date.yearCE * 12 + date.month0
        let afterDateMonths : Nat := afterDate.yearCE * 12 + afterDate.month0
        let monthsDiff : Nat := afterDateMonths - dateMonths
        let nextMonths : Nat := dateMonths + (monthsDiff / repeater.count + 1) * repeater.count
        match NaiveDate.fromYmd? ((nextMonths / 12 : Nat) : Int) (nextMonths % 12 + 1) date.day with
        | none => .panic
        | some nextDate =>
          if monthsDiff % repeater.count = 0 then
            if date.day0 < afterDate.day0 then .val (some nextDate)
            else if afterDate.day0 < date.day0 then
              .val (some ((afterDate.withDay0 date.day0).getD nextDate))
            else .val (some afterDate)
          else .val (some nextDate)
      | .year =>
        let dateYears : Nat := date.yearCE
        let afterDateYears : Nat := afterDate.yearCE
        let yearsDiff : Nat := afterDateYears - dateYears
        let nextYears : Nat := dateYears + (yearsDiff / repeater.count + 1) * repeater.count
        match NaiveDate.fromYmd? (nextYears : Int) date.month date.day with
        | none => .panic
        | some nextDate =>
          if yearsDiff % repeater.count = 0 then
            if mdOrdinal date < mdOrdinal afterDate then .val (some nextDate)
            else if mdOrdinal afterDate < mdOrdinal date then
              match (afterDate.withDay0 0).bind
                  (fun d => d.withMonth0 date.month0) |>.bind
                  (fun d => d.withDay0 date.day0) with
              | some d => .val (some d)
              | none => .panic
            else .val (some afterDate)
          else .val (some nextDate)

/-- Model of `Timestamp::into_next_repeat_after`: the next repeat of the whole
timestamp, or `Except.error self` when there is no next repeat.  The
`.unwrap()` on `Duration::try_days` cannot fail for day differences of valid
dates and is modelled by plain day addition. -/
def Timestamp.intoNextRepeatAfter (ts : Timestamp) (afterDate : NaiveDate) :
    PanicOr (Except Timestamp Timestamp) :=
  match ts.getNextRepeat afterDate with
  | .panic => .panic
  | .val none => .val (.error ts)
  | .val (some nextRepeat) =>
    let nextEnd : Option DateTime := ts.ending.map
      (fun e => ⟨nextRepeat.addDays (e.date.sub ts.start.date), e.time⟩)
    .val (.ok ⟨⟨nextRepeat, ts.start.time⟩, nextEnd, ts.repeater, ts.active⟩)

/-- Rendering of a `DateTime` inside a timestamp: the date (with the re-derived
day name), then the time when there is one. -/
def DateTime.render (dt : DateTime) : String :=
  dt.date.formatYmdDow ++ (match dt.time with | some t => " " ++ t.format | none => "")

/-- Model of `Timestamp::into_string`.  The source's recursive call for the
range case builds the end component from a timestamp with `end: None` and
`repeater: None`; that call is inlined here as the bracketed rendering of the
end `DateTime` (which is exactly what the callee computes for such a value). -/
def Timestamp.intoString (ts : Timestamp) : String :=
  let openB := if ts.active then "<" else "["
  let closeB := if ts.active then ">" else "]"
  let s1 := openB ++ ts.start.date.formatYmdDow ++
    (match ts.start.time with | some t => " " ++ t.format | none => "")
  match ts.ending with
  | some e =>
    if e.date = ts.start.date then
      let s2 := s1 ++ (match e.time with | some t => "-" ++ t.format | none => "")
      let s3 := s2 ++ (match ts.repeater with | some r => " " ++ r.intoString | none => "")
      s3 ++ closeB
    else
      (s1 ++ closeB) ++ "--" ++ (openB ++ e.render ++ closeB)
  | none =>
    let s3 := s1 ++ (match ts.repeater with | some r => " " ++ r.intoString | none => "")
    s3 ++ closeB

/-- Errors that can occur specifically while parsing timestamps
(`TimestampParseError` in `error.rs`).  The Rust field `end` of
`InvalidStartEnd` is named `stop` here (`end` is a Lean keyword), and the
`chrono` error payload of `InvalidTime` is dropped. -/
inductive TimestampParseError where
  | tooShort (len : Nat)
  | invalidStartEnd (start stop : Char)
  | notAscii
  | invalidDate (date : String)
  | invalidYear (year : String)
  | invalidMonth (month : String)
  | invalidDay (day : String)
  | invalidDateComponents (year : Int) (month day : Nat)
  | rangeInRange (timestamp : String)
  | badCharacter (c : Char)
  | dayNameTooLong (current : String) (nextC : Char)
  | badRepeaterUnit (c : Char)
  | invalidTime (timeStr : String)
deriving DecidableEq

/-- The location we're in while parsing a timestamp (`TimestampLocation`). -/
inductive TimestampLocation where
  | start
  | dayName
  | time
  | repeater

/-- The mutable accumulators of the scanning loop in `Timestamp::from_str`. -/
structure TsScan where
  dayName : List Char := []
  repeaterCount : List Char := []
  hasEndTime : Bool := false
  startTime : List Char := []
  endTime : List Char := []
  repeater : Option Repeater := none

/-- Model of `char::is_ascii`. -/
def isAsciiChar (c : Char) : Bool := c.toNat < 128

/-- The scanning loop of `Timestamp::from_str` over the characters after the
mandatory date.  The loop is driven by fuel for termination; each iteration
either consumes a character or re-dispatches the same character once from the
`Start` state, so `2 * length + 4` fuel never runs out (fuel exhaustion is
mapped to `.panic`, an unreachable outcome).  The `.unwrap()` of
`repeater_count.parse::<usize>()` on an empty digit string is a genuine panic
point of the source, modelled as `.panic`. -/
def tsScanLoop : Nat → TimestampLocation → TsScan → List Char →
    PanicOr (Except TimestampParseError TsScan)
  | 0, _, _, _ => .panic
  | _ + 1, _, st, [] => .val (.ok st)
  | fuel + 1, loc, st, c :: rest =>
    match loc with
    | .start =>
      if c = ' ' then tsScanLoop fuel .start st rest
      else if c.isAlpha then tsScanLoop fuel .dayName st (c :: rest)
      else if c.isDigit then tsScanLoop fuel .time st (c :: rest)
      else if c = '+' then tsScanLoop fuel .repeater st rest
      else .val (.error (.badCharacter c))
    | .dayName =>
      if c = ' ' then
        match rest with
        | [] => tsScanLoop fuel .dayName st rest
        | nextC :: rest' =>
          if nextC.isDigit then tsScanLoop fuel .time st rest
          else if nextC = '+' then tsScanLoop fuel .repeater st rest'
          else .val (.error (.badCharacter c))
      else if c.isAlpha && st.dayName.length < 3 then
        tsScanLoop fuel .dayName { st with dayName := st.dayName ++ [c] } rest
      else if c.isAlpha then
        .val (.error (.dayNameTooLong (String.mk st.dayName) c))
      else .val (.error (.badCharacter c))
    | .time =>
      if c = ' ' then
        match rest with
        | [] => tsScanLoop fuel .time st rest
        | nextC :: _ =>
          if nextC = '+' then tsScanLoop fuel .repeater st rest
          else .val (.error (.badCharacter c))
      else if c.isDigit || c = ':' then
        if st.hasEndTime then
          tsScanLoop fuel .time { st with endTime := st.endTime ++ [c] } rest
        else
          tsScanLoop fuel .time { st with startTime := st.startTime ++ [c] } rest
      else if c = '-' then
        tsScanLoop fuel .time { st with hasEndTime := true } rest
      else .val (.error (.badCharacter c))
    | .repeater =>
      if c.isDigit then
        tsScanLoop fuel .repeater { st with repeaterCount := st.repeaterCount ++ [c] } rest
      else if c.isAlpha then
        match parseNat? st.repeaterCount with
        | none => .panic
        | some repeaterCountNum =>
          match RepeaterUnit.fromChar c with
          | some unit =>
            tsScanLoop fuel .repeater { st with repeater := some ⟨repeaterCountNum, unit⟩ } rest
          | none => .val (.error (.badRepeaterUnit c))
      else tsScanLoop fuel .repeater st rest

/-- The non-range part of `Timestamp::from_str`: everything after the range
check. -/
def tsParseSingle (raw : List Char) : PanicOr (Except TimestampParseError Timestamp) :=
  if ¬ raw.all isAsciiChar then .val (.error .notAscii)
  else if raw.length < 12 then .val (.error (.tooShort raw.length))
  else
    -- The head/last defaults are unreachable: the list has at least 12 elements.
    let first := raw.headD ' '
    let last := raw.getLastD ' '
    let activeIfValid : Option Bool :=
      if first = '<' && last = '>' then some true
      else if first = '[' && last = ']' then some false
      else none
    match activeIfValid with
    | none => .val (.error (.invalidStartEnd first last))
    | some active =>
      let stripped := (raw.drop 1).dropLast
      let datePart := stripped.take 10
      let remaining := stripped.drop 10
      let dateParts := splitChar '-' datePart
      match dateParts with
      | [ys, ms, ds] =>
        match parseInt? ys with
        | none => .val (.error (.invalidYear (String.mk ys)))
        | some year =>
          match parseNat? ms with
          | none => .val (.error (.invalidMonth (String.mk ms)))
          | some month =>
            match parseNat? ds with
            | none => .val (.error (.invalidDay (String.mk ds)))
            | some day =>
              match NaiveDate.fromYmd? year month day with
              | none => .val (.error (.invalidDateComponents year month day))
              | some date =>
                match tsScanLoop (2 * remaining.length + 4) .start {} remaining with
                | .panic => .panic
                | .val (.error e) => .val (.error e)
                | .val (.ok st) =>
                  let startTime? : Option (Option NaiveTime) :=
                    if st.startTime.isEmpty then some none
                    else match NaiveTime.parse? st.startTime with
                      | some t => some (some t)
                      | none => none
                  match startTime? with
                  | none => .val (.error (.invalidTime (String.mk st.startTime)))
                  | some startTime =>
                    if st.endTime.isEmpty then
                      .val (.ok ⟨⟨date, startTime⟩, none, st.repeater, active⟩)
                    else
                      match NaiveTime.parse? st.endTime with
                      | none => .val (.error (.invalidTime (String.mk st.endTime)))
                      | some endTime =>
                        .val (.ok ⟨⟨date, startTime⟩, some ⟨date, some endTime⟩,
                          st.repeater, active⟩)
      | _ => .val (.error (.invalidDate (String.mk datePart)))

/-- Model of `Timestamp::from_str`, fuelled for the recursion on range
timestamps (each recursive call strictly shrinks the input, so a fuel of
`length + 1` suffices; exhaustion maps to the unreachable `.panic`). -/
def Timestamp.fromStrAux : Nat → List Char → PanicOr (Except TimestampParseError Timestamp)
  | 0, _ => .panic
  | fuel + 1, raw0 =>
    let raw := trimChars raw0
    if containsSeq raw "--".data then
      let parts := splitFirstSeq raw "--".data
      match Timestamp.fromStrAux fuel parts.1 with
      | .panic => .panic
      | .val (.error e) => .val (.error e)
      | .val (.ok startTs) =>
        match Timestamp.fromStrAux fuel parts.2 with
        | .panic => .panic
        | .val (.error e) => .val (.error e)
        | .val (.ok endTs) =>
          if startTs.ending.isSome || endTs.ending.isSome then
            .val (.error (.rangeInRange (String.mk raw)))
          else
            .val (.ok ⟨startTs.start, some endTs.start, startTs.repeater,
              startTs.active || endTs.active⟩)
    else tsParseSingle raw

/-- Model of `Timestamp::from_str` on a string. -/
def Timestamp.fromStr (s : String) : PanicOr (Except TimestampParseError Timestamp) :=
  Timestamp.fromStrAux (s.data.length + 1) s.data

/-! ## The node tree (`src/lib.rs`) and the formats (`src/format.rs`) -/

/-- The formats we can parse from and export to (`Format`). -/
inductive Format where
  | markdown
  | org
deriving DecidableEq

/-- Model of `Format::heading_char`. -/
def Format.headingChar : Format → Char
  | .markdown => '#'
  | .org => '*'

/-- Model of `Format::get_properties_opener`. -/
def Format.propertiesOpener : Format → String
  | .markdown => "<!--PROPERTIES"
  | .org => ":PROPERTIES:"

/-- Model of `Format::get_properties_closer`. -/
def Format.propertiesCloser : Format → String
  | .markdown => "-->"
  | .org => ":END:"

/-- The caller-supplied keyword capability (the `Keyword` trait of
`keyword.rs`): recognition, rendering and the wildcard constructor. -/
structure KeywordCap (K : Type) where
  fromStr : String → Option K
  intoString : K → String
  other : String → K

/-- The `CustomKeyword` implementation from the repository's test module
(`tests/mod.rs`): `TODO` and `PROJ` are recognized, everything else is not. -/
inductive CustomKeyword where
  | todo
  | proj
  | other (s : String)
deriving DecidableEq

/-- The `Keyword` trait implementation for `CustomKeyword`. -/
def customKeywordCap : KeywordCap CustomKeyword :=
  { fromStr := fun s => if s = "TODO" then some .todo else if s = "PROJ" then some .proj else none
    intoString := fun k => match k with
      | .todo => "TODO"
      | .proj => "PROJ"
      | .other s => s
    other := fun s => .other s }

/-- Planning items of some heading (`Planning` in `lib.rs`). -/
structure Planning where
  deadline : Option Timestamp := none
  scheduled : Option Timestamp := none
  closed : Option Timestamp := none
deriving DecidableEq

/-- Properties of some entry (`Properties<I, S>` at the default `I = StringId`,
`S = String`).  The `id` is a `StringId`, i.e. an optional string; the
`HashMap<String, S>` is modelled as an association list whose insertion
replaces an existing binding (iteration order is irrelevant: the serializer
sorts the keys). -/
structure Properties where
  id : Option String := none
  inner : List (String × String) := []
deriving DecidableEq

/-- Replace-or-append insertion: the model of `HashMap::insert`. -/
def assocInsert (m : List (String × String)) (k v : String) : List (String × String) :=
  match m with
  | [] => [(k, v)]
  | (k', v') :: rest =>
    if k' = k then (k, v) :: rest else (k', v') :: assocInsert rest k v

/-- The scalar fields of a `Node<K>` (everything except the children), at the
default identifier and string parameters.  `priority` unwraps the Rust
`Priority(pub Option<String>)` newtype; `tags` unwraps `Tags`. -/
structure NodeData (K : Type) where
  level : Nat := 0
  title : String := ""
  priority : Option String := none
  tags : List String := []
  planning : Planning := {}
  properties : Properties := {}
  keyword : Option K := none
  body : Option String := none
  timestamps : List Timestamp := []

/-- A single node (`Node<K>`): its scalar data and its ordered children. -/
inductive Node (K : Type) where
  | mk (data : NodeData K) (children : List (Node K))

/-- Scalar data of a node. -/
def Node.data : Node K → NodeData K
  | .mk d _ => d

/-- Children of a node (`Node::children`). -/
def Node.children : Node K → List (Node K)
  | .mk _ cs => cs

/-- Model of `Node::default`. -/
def Node.defaultNode : Node K := .mk {} []

/-- Errors that can occur while parsing a document (`ParseError` in
`error.rs`); the frontmatter variants drop their foreign `serde` payloads. -/
inductive ParseError where
  | timestampParseError (e : TimestampParseError)
  | invalidChildLevel (parentLevel badChildLevel : Nat)
  | invalidProperty (line : String)
  | invalidTags
  | planningRepeat (line : String)
  | idParseFailed (value : String)
  | parseStringFailed
  | yamlFrontmatterParseFailed
  | tomlFrontmatterParseFailed
  | incompleteAttributes
  | rootTitleNotString
  | rootTagsNotStringVec
deriving DecidableEq

/-- Model of `Node::add_child`: appends the child unless its level is not
strictly greater than this node's. -/
def Node.addChild (n : Node K) (child : Node K) : Except ParseError (Node K) :=
  if n.data.level < child.data.level then
    .ok (.mk n.data (n.children ++ [child]))
  else
    .error (.invalidChildLevel n.data.level child.data.level)

/-- Model of `Planning::add_line`: `none` when the line is not a planning line;
otherwise the updated planning set or a parse error.  A repeated keyword
silently overwrites the previous timestamp (the source performs `*prop =
Some(timestamp)` with no occupancy check).  The outer `PanicOr` propagates the
timestamp parser's panic points. -/
def Planning.addLine (p : Planning) (line : String) :
    PanicOr (Option (Except ParseError Planning)) :=
  match splitFirstColon line.data with
  | none => .val none
  | some (k, v) =>
    let key := trimStr (String.mk k)
    let timestamp := trimStr (String.mk v)
    let update (set : Timestamp → Planning) : PanicOr (Option (Except ParseError Planning)) :=
      match Timestamp.fromStr timestamp with
      | .panic => .panic
      | .val (.ok ts) => .val (some (.ok (set ts)))
      | .val (.error e) => .val (some (.error (.timestampParseError e)))
    if key = "DEADLINE" then update (fun ts => { p with deadline := some ts })
    else if key = "SCHEDULED" then update (fun ts => { p with scheduled := some ts })
    else if key = "CLOSED" then update (fun ts => { p with closed := some ts })
    else .val none

/-- Model of `Properties::add_line` at `I = StringId`, `S = String`: parse a
`[:]KEY: value` line.  `StringId::parse` accepts every string, so the
`IdParseFailed` branch is unreachable at this instantiation, and
`String::from_str` is infallible, so `ParseStringFailed` is as well. -/
def Properties.addLine (p : Properties) (line : String) : Except ParseError Properties :=
  let line' := match line.data with
    | ':' :: rest => rest
    | cs => cs
  match splitFirstColon line' with
  | none => .error (.invalidProperty (String.mk line'))
  | some (k, v) =>
    let key := trimStr (String.mk k)
    let value := trimStr (String.mk v)
    if key = "ID" then .ok { p with id := some value }
    else .ok { p with inner := assocInsert p.inner key value }

/-! ## The heading tokenizer (`src/heading_parser.rs`) -/

/-- Model of `parse_priority`: a `[#X]` token yields `X`. -/
def parsePriority (text : List Char) : Option String :=
  if ¬ text.isEmpty ∧ text.headD ' ' = '[' ∧ text.get? 1 = some '#' ∧ text.getLastD ' ' = ']' then
    some (String.mk ((text.drop 2).dropLast))
  else none

/-- States the parser can be in while trying to find a keyword
(`KeywordStatus`). -/
inductive KeywordStatus where
  | noKeyword
  | definite
  | ambiguous (potentialKw : String)

/-- Model of `KeywordStatus::is_ambiguous`. -/
def KeywordStatus.isAmbiguous : KeywordStatus → Bool
  | .ambiguous _ => true
  | _ => false

/-- Where we are inside a heading line (`NodeParseLocation`); the pre-title
state carries the token counter, the keyword status and the priority status
(`PriorityStatus` is a plain flag). -/
inductive HeadingLoc where
  | stars
  | preTitle (tokensParsed : Nat) (kwStatus : KeywordStatus) (prioFound : Bool)
  | title

/-- The inner tag-validation loop of the title phase: scan the characters after
the opening `:` (up to, but excluding, the synthetic final space), pushing a
tag at each `:` and aborting on any character that is not valid in a tag.  A
trailing partial tag is discarded, exactly as in the source.  Rust's Unicode
`char::is_alphanumeric` is modelled by the ASCII `Char.isAlphanum` (all inputs
in scope are ASCII). -/
def tagScan (seg : List Char) (tags : List String) (tag : List Char) : List String × Bool :=
  match seg with
  | [] => (tags, true)
  | c :: rest =>
    if c = ':' then tagScan rest (tags ++ [String.mk tag]) []
    else if c.isAlphanum || c = '_' || c = '@' then tagScan rest tags (tag ++ [c])
    else (tags, false)

/-- The inner timestamp-collection loop of the title phase: collect characters
from the opening `<` until (and including) the first `>`.  The second component
is the relative index of the `>` when one was found (the source then jumps `i`
to just after it); `none` otherwise (the source leaves `i` unchanged). -/
def timestampScan (seg : List Char) (idx : Nat) (acc : List Char) : List Char × Option Nat :=
  match seg with
  | [] => (acc, none)
  | c :: rest =>
    if c = '>' then (acc ++ [c], some idx)
    else timestampScan rest (idx + 1) (acc ++ [c])

/-- The character loop of `Node::from_heading_str`, transliterating the
three-phase scanner.  The loop is fuelled: every iteration either advances `i`
or backtracks, and a backtrack happens at most once (it permanently enters the
title phase), so `2 * length + 4` fuel never runs out (exhaustion maps to the
unreachable `.panic`).  The `(KeywordStatus::None, PriorityStatus::None)` match
arm is `unreachable!()` in the source and is likewise mapped to `.panic`.
Backtracks write out the source's `i = i - ... ;` followed by the loop's
`i += 1` literally. -/
def headingLoop (cap : KeywordCap K) (hc : Char) (chars : List Char) :
    Nat → Nat → NodeData K → List Char → HeadingLoc →
    PanicOr (Option (NodeData K × List Char × HeadingLoc))
  | 0, _, _, _, _ => .panic
  | fuel + 1, i, data, curr, loc =>
    if i < chars.length then
      let isEnd := i = chars.length - 1
      let c := chars.getD i ' '
      let nextC := chars.get? (i + 1)
      match loc with
      | .stars =>
        if c = hc then
          headingLoop cap hc chars fuel (i + 1) { data with level := data.level + 1 } curr .stars
        else if c = ' ' then
          headingLoop cap hc chars fuel (i + 1) data [] (.preTitle 0 .noKeyword false)
        else .val none
      | .preTitle tokensParsed kwStatus prioFound =>
        if c = ' ' then
          let tokensParsed := tokensParsed + 1
          -- The classification chain over the just-finished token `curr`.
          let classified : NodeData K × KeywordStatus × Bool × List Char :=
            match cap.fromStr (String.mk curr) with
            | some keyword => ({ data with keyword := some keyword }, .definite, prioFound, curr)
            | none =>
              match parsePriority curr with
              | some priority => ({ data with priority := some priority }, kwStatus, true, curr)
              | none =>
                if ¬ kwStatus.isAmbiguous then
                  -- `std::mem::take(&mut curr)` empties `curr` here.
                  (data, .ambiguous (String.mk curr), prioFound, [])
                else (data, kwStatus, prioFound, curr)
          match classified with
          | (data1, kw1, prio1, curr1) =>
            match kw1, prio1 with
            | .noKeyword, false => .panic
            | .noKeyword, true => headingLoop cap hc chars fuel (i + 1) data1 [] .title
            | .definite, true => headingLoop cap hc chars fuel (i + 1) data1 [] .title
            | .ambiguous potentialKw, true =>
              headingLoop cap hc chars fuel (i + 1)
                { data1 with keyword := some (cap.other potentialKw) } [] .title
            | .definite, false =>
              if 2 ≤ tokensParsed then
                headingLoop cap hc chars fuel ((i - curr1.length - 1) + 1) data1 [] .title
              else
                headingLoop cap hc chars fuel (i + 1) data1 []
                  (.preTitle tokensParsed .definite false)
            | .ambiguous potentialKw, false =>
              if 2 ≤ tokensParsed || isEnd then
                headingLoop cap hc chars fuel
                  ((i - (curr1.length + potentialKw.length + 2)) + 1) data1 [] .title
              else
                headingLoop cap hc chars fuel (i + 1) data1 []
                  (.preTitle tokensParsed (.ambiguous potentialKw) false)
        else
          headingLoop cap hc chars fuel (i + 1) data (curr ++ [c])
            (.preTitle tokensParsed kwStatus prioFound)
      | .title =>
        let isTagStarter := c = ':' && nextC ≠ some ' ' && nextC ≠ some ':'
        let isTimestampStarter := c = '<' && nextC ≠ some ' ' && nextC ≠ some '<'
        if isTagStarter then
          let seg := (chars.drop (i + 1)).take (chars.length - 1 - (i + 1))
          let scanned := tagScan seg [] []
          if scanned.2 then
            -- The tags ran to the end of the heading: record them and break.
            .val (some ({ data with tags := scanned.1 }, curr, .title))
          else headingLoop cap hc chars fuel (i + 1) data (curr ++ [c]) .title
        else if isTimestampStarter then
          let scanned := timestampScan (chars.drop i) 0 []
          let i1 := match scanned.2 with
            | some k => i + k + 1
            | none => i
          match Timestamp.fromStrAux (scanned.1.length + 1) scanned.1 with
          | .panic => .panic
          | .val (.ok timestamp) =>
            headingLoop cap hc chars fuel (i1 + 1)
              { data with timestamps := data.timestamps ++ [timestamp] } curr .title
          | .val (.error _) =>
            headingLoop cap hc chars fuel (i1 + 1) data (curr ++ [c]) .title
        else headingLoop cap hc chars fuel (i + 1) data (curr ++ [c]) .title
    else .val (some (data, curr, loc))

/-- Model of `Node::from_heading_str`: `.val none` when the line is not a
heading in the given format. -/
def Node.fromHeadingStr (cap : KeywordCap K) (heading : String) (fmt : Format) :
    PanicOr (Option (Node K)) :=
  let startsRight : Bool := match heading.data with
    | c :: _ => c == fmt.headingChar
    | [] => false
  if startsRight then
    -- The source appends one synthetic trailing space so that token scanning
    -- terminates uniformly.
    let chars := heading.data ++ [' ']
    match headingLoop cap fmt.headingChar chars (2 * chars.length + 4) 0 {} [] .stars with
    | .panic => .panic
    | .val none => .val none
    | .val (some (data, curr, loc)) =>
      let data' := match loc with
        | .title => { data with title := trimStr (String.mk curr) }
        | _ => data
      .val (some (Node.mk data' []))
  else .val none

/-! ## The serializer (`src/into_format.rs`) -/

/-- Model of `Priority::into_string`. -/
def priorityIntoString (p : Option String) : String :=
  match p with
  | some note => "[#" ++ note ++ "]"
  | none => ""

/-- Model of `Tags::into_string` (i.e. `:tag1:tag2:`). -/
def tagsIntoString (tags : List String) : String :=
  if tags.isEmpty then ""
  else tags.foldl (fun acc tag => acc ++ tag ++ ":") ":"

/-- Model of `Planning::into_string`: the planning items, in the fixed
deadline/scheduled/closed order, newline-joined. -/
def Planning.intoString (p : Planning) : String :=
  let addItem := fun (prop : Option Timestamp) (name : String) =>
    match prop with
    | some ts => [name ++ ": " ++ ts.intoString]
    | none => []
  joinWith "\n"
    (addItem p.deadline "DEADLINE" ++ addItem p.scheduled "SCHEDULED" ++ addItem p.closed "CLOSED")

/-- First-match association-list lookup (the model of `HashMap::get`). -/
def assocLookup (m : List (String × String)) (k : String) : Option String :=
  match m with
  | [] => none
  | (k', v) :: rest => if k' = k then some v else assocLookup rest k

/-- Ordered insertion into a sorted list of strings. -/
def insertSorted (x : String) : List String → List String
  | [] => [x]
  | y :: ys => if x ≤ y then x :: y :: ys else y :: insertSorted x ys

/-- Ascending lexicographic sort (insertion sort): the model of `Vec::sort` on
the property keys. -/
def sortStrings (l : List String) : List String := l.foldr insertSorted []

/-- Model of `Properties::into_string`: the `ID` first when present, then the
remaining keys in sorted order, inside the format's drawer delimiters.
`StringId::is_some` is `Option.isSome` on the modelled identifier. -/
def Properties.intoString (p : Properties) (fmt : Format) : String :=
  if p.id.isNone && p.inner.isEmpty then ""
  else
    let s0 := fmt.propertiesOpener
    let s1 := match p.id with
      | some idv =>
        s0 ++ "\n" ++ (match fmt with | .markdown => "ID: " | .org => ":ID: ") ++ idv
      | none => s0
    let keys := sortStrings (p.inner.map Prod.fst)
    let s2 := keys.foldl (fun acc k =>
      acc ++ "\n" ++ (if fmt = Format.org then ":" else "") ++ k ++ ": " ++
        ((assocLookup p.inner k).getD "")) s1
    s2 ++ "\n" ++ fmt.propertiesCloser

/-- Utility of `Node::into_string`: append a trailing space to a non-empty
string. -/
def withSpaceAfter (thing : String) : String :=
  if thing = "" then "" else thing ++ " "

/-- Utility of `Node::into_string`: prepend a leading space to a non-empty
string. -/
def withSpaceBefore (thing : String) : String :=
  if thing = "" then "" else " " ++ thing

mutual

/-- Model of `Node::into_string`: the heading line (keyword, priority, title,
timestamps, tags), then planning, properties, the body, then every child.  The
`push_part` closure of the source only pushes non-empty parts; the body is
pushed unconditionally when present (`Some("")` is a single empty line), and
so is every child.  For the root (level 0) only the properties are rendered. -/
def Node.intoString (cap : KeywordCap K) (fmt : Format) : Node K → String
  | .mk data children =>
    let headParts : List String :=
      if 0 < data.level then
        let stars := String.mk (List.replicate data.level fmt.headingChar)
        let tagsStr := withSpaceBefore (tagsIntoString data.tags)
        let title := data.title
        let keyword := withSpaceAfter (match data.keyword with
          | some k => cap.intoString k
          | none => "")
        let priority := withSpaceAfter (priorityIntoString data.priority)
        let timestamps := withSpaceBefore
          (joinWith " " (data.timestamps.map Timestamp.intoString))
        let heading := trimStr
          (stars ++ " " ++ keyword ++ priority ++ title ++ timestamps ++ tagsStr)
        [heading, data.planning.intoString, data.properties.intoString fmt].filter
          (fun s => s ≠ "")
      else
        [data.properties.intoString fmt].filter (fun s => s ≠ "")
    let withBody := headParts ++ (match data.body with | some b => [b] | none => [])
    joinWith "\n" (withBody ++ nodesIntoStrings cap fmt children)

/-- Rendering of a node list, used for the recursion over children. -/
def nodesIntoStrings (cap : KeywordCap K) (fmt : Format) : List (Node K) → List String
  | [] => []
  | n :: ns => Node.intoString cap fmt n :: nodesIntoStrings cap fmt ns

end

/-! ## The document-level parser (`src/parser.rs`) -/

/-- Model of the `finish_body` closure: an empty line buffer means no body at
all (`None`), anything else is the newline-joined text. -/
def finishBody (currBody : List String) : Option String :=
  if currBody.isEmpty then none else some (joinWith "\n" currBody)

/-- Model of `Document::get_last_node_at_level`: walk `level` steps from the
root, through the last child each time (`children.last_mut()`); `none` when
some node on the way has no children. -/
def getAtDepth? : Node K → Nat → Option (Node K)
  | n, 0 => some n
  | n, d + 1 =>
    match n.children.getLast? with
    | none => none
    | some c => getAtDepth? c d

/-- Functional counterpart of pushing a child through the live `curr_parent`
reference: append `child` to the node reached by walking `depth` last-children
from `n`.  The `none` outcome (a missing node on the way) cannot occur for the
depths the parser uses, since they were resolved through `getAtDepth?` first;
the parser maps it to a panic defensively. -/
def addChildAtDepth : Node K → Nat → Node K → Option (Except ParseError (Node K))
  | n, 0, child => some (n.addChild child)
  | n, d + 1, child =>
    match n.children.getLast? with
    | none => none
    | some c =>
      match addChildAtDepth c d child with
      | none => none
      | some (.error e) => some (.error e)
      | some (.ok c') => some (.ok (.mk n.data (n.children.dropLast ++ [c'])))

/-- Functional field update on a node's scalar data. -/
def Node.mapData (n : Node K) (f : NodeData K → NodeData K) : Node K :=
  .mk (f n.data) n.children

/-- Model of `str::lines`: split on `\n`, drop a trailing empty segment (a
final newline produces no extra line), and strip one trailing `\r` from each
line. -/
def splitLines (s : String) : List String :=
  let parts := splitChar '\n' s.data
  let parts := match parts.getLast? with
    | some [] => parts.dropLast
    | _ => parts
  parts.map (fun cs => String.mk (if cs.getLast? = some '\r' then cs.dropLast else cs))

/-- Where in the root node of an Org document we are (`OrgStartLocation`). -/
inductive OrgStartLocation where
  | beginning
  | properties
  | content

/-- Where in the root node of a Markdown document we are
(`MarkdownStartLocation`). -/
inductive MarkdownStartLocation where
  | beginning (haveSeenFrontmatter : Bool)
  | frontmatter
  | properties
  | content

/-- The type of location we're at in the parsing process (`ParseLocation`). -/
inductive ParseLocation where
  | orgStart (l : OrgStartLocation)
  | markdownStart (l : MarkdownStartLocation)
  | body
  | planning
  | properties

/-- Model of `ParseLocation::is_start`. -/
def ParseLocation.isStart : ParseLocation → Bool
  | .orgStart _ => true
  | .markdownStart _ => true
  | _ => false

/-- A document: the root node plus the top-level attribute text.  In this
snapshot of the sources, `Document::from_str` stores the accumulated raw
attribute text (`document_attributes: String`) on the document; the modelled
document follows the parser and keeps that string. -/
structure Document (K : Type) where
  root : Node K
  attributes : String

/-- Outcome of a whole parse: a document, a typed error, or a panic of the
Rust process. -/
inductive ParseResult (K : Type) where
  | ok (doc : Document K)
  | err (e : ParseError)
  | panic

/-- The mutable state of the `Document::from_str` loop: the tree built so far,
the accumulated attribute text, the node being populated, the rightmost-spine
depth of `curr_parent`, the body line buffer, and the state-machine location. -/
structure ParserState (K : Type) where
  root : Node K
  attrs : String
  currNode : Node K
  parentDepth : Nat
  currBody : List String
  loc : ParseLocation

/-- The shared Org `Content` logic (`OrgStartLocation::Content`): an untrimmed
line starting with `#+` joins the attribute text, anything else joins the root
body.  This is also the target of the `Beginning` state's reprocessing
`continue`, which is inlined at its call sites. -/
def orgContentStep (st : ParserState K) (line : String) : ParserState K :=
  if strStartsWith line "#+" then
    let attrs' := if st.attrs ≠ "" then st.attrs ++ "\n" ++ line else st.attrs ++ line
    { st with attrs := attrs', loc := .orgStart .content }
  else
    { st with currBody := st.currBody ++ [line], loc := .orgStart .content }

/-- The line loop of `Document::from_str`.  The source's `continue` without
advancing `i` (reprocessing the same line after a state change) is inlined:
the target state's handling of the line is performed directly, which is
equivalent because the heading check on the same line is deterministic. -/
def parseLoop (cap : KeywordCap K) (fmt : Format) : ParserState K → List String → ParseResult K
  | st, [] =>
    -- Finalise the body, then add the last node to its parent.
    if st.loc.isStart then
      .ok ⟨st.root.mapData (fun d => { d with body := finishBody st.currBody }), st.attrs⟩
    else
      let finished := st.currNode.mapData (fun d => { d with body := finishBody st.currBody })
      match addChildAtDepth st.root st.parentDepth finished with
      | none => .panic
      | some (.error e) => .err e
      | some (.ok root') => .ok ⟨root', st.attrs⟩
  | st, line :: rest =>
    match Node.fromHeadingStr cap line fmt with
    | .panic => .panic
    | .val (some newNode) =>
      if st.loc.isStart then
        -- Finish the root body; `curr_parent` is the root in every start state.
        let root' := st.root.mapData (fun d => { d with body := finishBody st.currBody })
        parseLoop cap fmt
          { st with root := root', currNode := newNode, currBody := [], loc := .planning } rest
      else
        let finished := st.currNode.mapData (fun d => { d with body := finishBody st.currBody })
        let newLevel := newNode.data.level
        let currLevel := st.currNode.data.level
        match addChildAtDepth st.root st.parentDepth finished with
        | none => .panic
        | some (.error e) => .err e
        | some (.ok root') =>
          -- The `new_level.cmp(&curr_level)` parent update; the `.unwrap()`s on
          -- `get_last_node_at_level` are the source's panic points (see the
          -- `// BUG` comment in `parser.rs`).
          if newLevel < currLevel then
            match getAtDepth? root' (newLevel - 1) with
            | none => .panic
            | some _ =>
              parseLoop cap fmt
                { st with
                  root := root'
                  currNode := newNode
                  parentDepth := newLevel - 1
                  currBody := []
                  loc := .planning } rest
          else if currLevel < newLevel then
            match getAtDepth? root' currLevel with
            | none => .panic
            | some _ =>
              parseLoop cap fmt
                { st with
                  root := root'
                  currNode := newNode
                  parentDepth := currLevel
                  currBody := []
                  loc := .planning } rest
          else
            parseLoop cap fmt
              { st with root := root', currNode := newNode, currBody := [], loc := .planning } rest
    | .val none =>
      let trimmedLine := trimStr line
      match st.loc with
      | .orgStart sl =>
        match sl with
        | .beginning =>
          if trimmedLine = fmt.propertiesOpener then
            parseLoop cap fmt { st with loc := .orgStart .properties } rest
          else if trimmedLine ≠ "" then
            -- Transition to `Content` and reprocess this line there.
            parseLoop cap fmt (orgContentStep { st with loc := .orgStart .content } line) rest
          else
            -- Empty lines at the start of a document are skipped.
            parseLoop cap fmt st rest
        | .properties =>
          if trimmedLine = fmt.propertiesCloser then
            parseLoop cap fmt { st with loc := .orgStart .content } rest
          else if trimmedLine ≠ "" then
            match st.root.data.properties.addLine trimmedLine with
            | .error e => .err e
            | .ok p' =>
              parseLoop cap fmt
                { st with root := st.root.mapData (fun d => { d with properties := p' }) } rest
          else parseLoop cap fmt st rest
        | .content => parseLoop cap fmt (orgContentStep st line) rest
      | .markdownStart sl =>
        match sl with
        | .beginning haveSeenFrontmatter =>
          if (trimmedLine = "---" || trimmedLine = "+++") && !haveSeenFrontmatter then
            parseLoop cap fmt
              { st with attrs := st.attrs ++ line, loc := .markdownStart .frontmatter } rest
          else if trimmedLine = fmt.propertiesOpener then
            -- Nullify any newlines buffered between frontmatter and properties.
            parseLoop cap fmt
              { st with currBody := [], loc := .markdownStart .properties } rest
          else if trimmedLine ≠ "" then
            -- Transition to `Content` and reprocess this line there.
            parseLoop cap fmt
              { st with currBody := st.currBody ++ [line], loc := .markdownStart .content } rest
          else if haveSeenFrontmatter then
            parseLoop cap fmt { st with currBody := st.currBody ++ [""] } rest
          else parseLoop cap fmt st rest
        | .frontmatter =>
          if trimmedLine = "---" || trimmedLine = "+++" then
            parseLoop cap fmt
              { st with
                attrs := st.attrs ++ "\n" ++ line
                loc := .markdownStart (.beginning true) } rest
          else
            parseLoop cap fmt { st with attrs := st.attrs ++ "\n" ++ line } rest
        | .properties =>
          if trimmedLine = fmt.propertiesCloser then
            parseLoop cap fmt { st with loc := .markdownStart .content } rest
          else if trimmedLine ≠ "" then
            match st.root.data.properties.addLine trimmedLine with
            | .error e => .err e
            | .ok p' =>
              parseLoop cap fmt
                { st with root := st.root.mapData (fun d => { d with properties := p' }) } rest
          else parseLoop cap fmt st rest
        | .content => parseLoop cap fmt { st with currBody := st.currBody ++ [line] } rest
      | .planning =>
        if trimmedLine = fmt.propertiesOpener then
          parseLoop cap fmt { st with loc := .properties } rest
        else
          match st.currNode.data.planning.addLine line with
          | .panic => .panic
          | .val (some (.error e)) => .err e
          | .val (some (.ok p')) =>
            parseLoop cap fmt
              { st with currNode := st.currNode.mapData (fun d => { d with planning := p' }) } rest
          | .val none =>
            -- Transition to `Body` and reprocess this line there.
            parseLoop cap fmt
              { st with currBody := st.currBody ++ [line], loc := .body } rest
      | .properties =>
        if trimmedLine = fmt.propertiesCloser then
          parseLoop cap fmt { st with loc := .body } rest
        else if trimmedLine ≠ "" then
          match st.currNode.data.properties.addLine trimmedLine with
          | .error e => .err e
          | .ok p' =>
            parseLoop cap fmt
              { st with currNode := st.currNode.mapData (fun d => { d with properties := p' }) } rest
        else parseLoop cap fmt st rest
      | .body => parseLoop cap fmt { st with currBody := st.currBody ++ [line] } rest

/-- Model of `Document::from_str`. -/
def Document.fromStr (cap : KeywordCap K) (rawContents : String) (fmt : Format) :
    ParseResult K :=
  let loc0 : ParseLocation := match fmt with
    | .org => .orgStart .beginning
    | .markdown => .markdownStart (.beginning false)
  parseLoop cap fmt ⟨Node.defaultNode, "", Node.defaultNode, 0, [], loc0⟩
    (splitLines rawContents)

/-! ## Document serialization (the Org branch of `Document::into_string`)

The attribute store (`Attributes` in `lib.rs`) has four variants; the YAML and
TOML Markdown variants hold foreign `serde` values that the spec (§1) treats
as external black boxes, and no claim exercises them, so only the Org ordered
map and the `None` variant are embedded.  In this snapshot the parser stores
the raw attribute text on the document while the serializer consumes the
parsed store; the conversion between them is not in the sources and is
modelled from the spec below. -/

/-- The embedded attribute store: the Org ordered map or no attributes. -/
inductive Attributes where
  | org (map : List (String × String))
  | noAttrs
deriving DecidableEq

/-- Model of `IndexMap::shift_remove`: drop the binding, preserving the order
of the others. -/
def indexMapRemove (m : List (String × String)) (k : String) : List (String × String) :=
  m.filter (fun kv => kv.1 ≠ k)

/-- Modelled from the spec: the conversion from the raw attribute text the
parser accumulates to the Org attribute store the serializer consumes is not
in the sources (the snapshot's `parser.rs` stores a `String` where
`into_format.rs` reads an `Attributes`).  Per §2/§4.2 of the spec, an Org
document's attributes are its `#+key: value` lines as an ordered string map,
and an empty attribute region is the empty store. -/
def attributesFromRawOrg (raw : String) : Attributes :=
  if raw = "" then .noAttrs
  else .org ((splitLines raw).map (fun line =>
    let noMarker := line.data.drop 2
    match splitFirstColon noMarker with
    | some (k, v) => (String.mk k, trimStr (String.mk v))
    | none => (String.mk noMarker, "")))

/-- Model of `Attributes::set_title` restricted to the embedded variants, for
the Org format: an empty title removes the `title` key, a non-empty one
inserts it (creating an Org map if there were no attributes). -/
def Attributes.setTitleOrg (a : Attributes) (title : String) : Attributes :=
  if title = "" then
    match a with
    | .org m => .org (indexMapRemove m "title")
    | .noAttrs => .noAttrs
  else
    match a with
    | .org m => .org (assocInsert m "title" title)
    | .noAttrs => .org [("title", title)]

/-- Model of `Attributes::set_tags` restricted to the embedded variants, for
the Org format: no tags removes the `filetags` key, otherwise the
`:a:b:`-joined list is inserted. -/
def Attributes.setTagsOrg (a : Attributes) (tags : List String) : Attributes :=
  if tags.isEmpty then
    match a with
    | .org m => .org (indexMapRemove m "filetags")
    | .noAttrs => .noAttrs
  else
    let value := ":" ++ joinWith ":" tags ++ ":"
    match a with
    | .org m => .org (assocInsert m "filetags" value)
    | .noAttrs => .org [("filetags", value)]

/-- Model of the Org arm of `Attributes::into_string`: `#+key: value` lines. -/
def Attributes.intoStringOrg : Attributes → String
  | .org m => joinWith "\n" (m.map (fun kv => "#+" ++ kv.1 ++ ": " ++ kv.2))
  | .noAttrs => ""

/-- Replace the first occurrence of `pat` (the model of `str::replacen(pat,
repl, 1)`): the string is unchanged when the pattern does not occur. -/
def replaceFirstSeq (cs pat repl : List Char) : List Char :=
  match cs with
  | [] => []
  | c :: rest =>
    if pat.isPrefixOf cs then repl ++ cs.drop pat.length
    else c :: replaceFirstSeq rest pat repl

/-- Model of the Org branch of `Document::into_string`: implant the root
title/tags into the attributes, render the root, and splice the attribute text
(after a root property drawer, or at the start).  The Markdown branch would
require the black-box YAML/TOML emitters and is exercised by no claim. -/
def Document.intoStringOrg (cap : KeywordCap K) (d : Document K) : String :=
  let attrs1 := ((attributesFromRawOrg d.attributes).setTitleOrg d.root.data.title).setTagsOrg
    d.root.data.tags
  let rootStr := d.root.intoString cap .org
  let attributesStr := attrs1.intoStringOrg
  if attributesStr ≠ "" then
    if strStartsWith rootStr ":PROPERTIES:" then
      String.mk (replaceFirstSeq rootStr.data ":END".data (":END:\n" ++ attributesStr).data)
    else attributesStr ++ "\n" ++ rootStr
  else rootStr

/-! ## Observation helpers and concrete values used by the theorems -/

/-- Parse in Org with the test keyword capability and re-serialize in Org;
`none` when parsing does not return a document. -/
def roundTripOrg (s : String) : Option String :=
  match Document.fromStr customKeywordCap s Format.org with
  | .ok d => some (d.intoStringOrg customKeywordCap)
  | .err _ => none
  | .panic => none

/-- The planning sets of the root's children of a parse result. -/
def parsedPlannings (r : ParseResult CustomKeyword) : Option (List Planning) :=
  match r with
  | .ok d => some (d.root.children.map (fun c => c.data.planning))
  | .err _ => none
  | .panic => none

/-- The bodies of the root's children of a parse result. -/
def parsedBodies (r : ParseResult CustomKeyword) : Option (List (Option String)) :=
  match r with
  | .ok d => some (d.root.children.map (fun c => c.data.body))
  | .err _ => none
  | .panic => none

/-- Keyword, priority and title of a tokenized heading; `none` when the line is
not a heading (or the tokenizer panicked). -/
def headingSummary (s : String) :
    Option (Option CustomKeyword × Option String × String) :=
  match Node.fromHeadingStr customKeywordCap s Format.org with
  | .val (some n) => some (n.data.keyword, n.data.priority, n.data.title)
  | .val none => none
  | .panic => none

/-- Successfully parsed timestamp of a string, `none` otherwise. -/
def Timestamp.fromStrOk? (s : String) : Option Timestamp :=
  match Timestamp.fromStr s with
  | .val (.ok t) => some t
  | .val (.error _) => none
  | .panic => none

/-- The timestamp `<2024-01-02 +3m>`. -/
def tsMonthly3 : Timestamp :=
  ⟨⟨⟨daysFromCivil 2024 1 2⟩, none⟩, none, some ⟨3, .month⟩, true⟩

/-- The timestamp `<2024-01-01 Mon +3w>`. -/
def tsWeekly3 : Timestamp :=
  ⟨⟨⟨daysFromCivil 2024 1 1⟩, none⟩, none, some ⟨3, .week⟩, true⟩

/-- A repeaterless timestamp `<2024-01-02 Tue>`. -/
def tsNoRepeat : Timestamp :=
  ⟨⟨⟨daysFromCivil 2024 1 2⟩, none⟩, none, none, true⟩

/-- A timestamp whose end is the same (time-less) day as its start:
the parse of `<2023-01-01>--<2023-01-01>`. -/
def tsSameDay : Timestamp :=
  ⟨⟨⟨daysFromCivil 2023 1 1⟩, none⟩, some ⟨⟨daysFromCivil 2023 1 1⟩, none⟩, none, true⟩

/-! ## Theorems about the claims -/

set_option maxRecDepth 100000

set_option maxHeartbeats 4000000

/-- Claim C1: parsing the single Org heading `* TODO [#B] Task 1 <2023-01-01
Sun>` (with a keyword capability recognizing `TODO`) and re-serializing in Org
yields the identical string. -/
theorem parse_print_roundTrip_org :
    roundTripOrg "* TODO [#B] Task 1 <2023-01-01 Sun>" =
      some "* TODO [#B] Task 1 <2023-01-01 Sun>" := by
  decide

/-- Claim C2 (code bug): a node with two `DEADLINE:` planning lines parses
*successfully* — the second line silently overwrites the first (`Planning::
add_line` has no occupancy check and `ParseError::PlanningRepeat` is never
constructed), contrary to the documented hard parse error; a single occurrence
of each of `DEADLINE`/`SCHEDULED`/`CLOSED` is accepted as specified. -/
theorem duplicate_planning_keyword_overwrites :
    parsedPlannings (Document.fromStr customKeywordCap
      "* H\nDEADLINE: <2024-01-01>\nDEADLINE: <2024-01-08>" Format.org) =
      some [{ deadline := some ⟨⟨⟨daysFromCivil 2024 1 8⟩, none⟩, none, none, true⟩ }] ∧
    parsedPlannings (Document.fromStr customKeywordCap
      "* H\nDEADLINE: <2024-01-01>\nSCHEDULED: <2024-01-02>\nCLOSED: [2024-01-03]" Format.org) =
      some [{ deadline := some ⟨⟨⟨daysFromCivil 2024 1 1⟩, none⟩, none, none, true⟩
              scheduled := some ⟨⟨⟨daysFromCivil 2024 1 2⟩, none⟩, none, none, true⟩
              closed := some ⟨⟨⟨daysFromCivil 2024 1 3⟩, none⟩, none, none, false⟩ }] := by
  constructor
  · decide
  · decide

/-- Claim C3 (code bug): on an input whose first heading is at level 3 and
whose next heading is at level 4, `Document::from_str` panics — the
`Ordering::Greater` parent-resolution step unwraps
`get_last_node_at_level(curr_level)`, which walks *depth* rather than level
and returns `None` (the source carries a `// BUG` comment at this line) —
rather than returning a document or a typed error. -/
theorem deeper_heading_parent_resolution_panics :
    Document.fromStr customKeywordCap "*** A\n**** B" Format.org =
      ParseResult.panic := by
  rfl

/-- Claim C4: with a capability that does not recognize `BLAH`, the heading
`* BLAH Test` tokenizes with no keyword and title `BLAH Test`, while
`* BLAH [#A] Test` tokenizes with keyword `Other("BLAH")`, priority `A` and
title `Test`. -/
theorem keyword_priority_disambiguation :
    headingSummary "* BLAH Test" = some (none, none, "BLAH Test") ∧
    headingSummary "* BLAH [#A] Test" =
      some (some (CustomKeyword.other "BLAH"), some "A", "Test") := by
  constructor
  · decide
  · decide

/-- Dates with equal day numbers are equal. -/
theorem NaiveDate.eqOfDays {a b : NaiveDate} (h : a.days = b.days) : a = b := by
  cases a
  cases b
  cases h
  rfl

/-- Adding the day difference to a date lands on the other date. -/
theorem addDays_sub_self (a b : NaiveDate) : a.addDays (b.sub a) = b := by
  cases a
  cases b
  simp only [NaiveDate.addDays, NaiveDate.sub, NaiveDate.mk.injEq]
  omega

/-- Length of a separator-join: the summed part lengths plus one separator
between consecutive parts. -/
theorem joinWith_length (sep : String) (l : List String) :
    (joinWith sep l).length = (l.map String.length).sum + sep.length * (l.length - 1) := by
  induction l with
  | nil => simp [joinWith]
  | cons x xs ih =>
    cases xs with
    | nil => simp [joinWith]
    | cons y ys =>
      simp only [joinWith, String.length_append, ih, List.map_cons, List.sum_cons,
        List.length_cons, Nat.add_sub_cancel]
      ring_nf

/-- Inserting one extra empty line into a newline-join changes the string, as
long as the leading kept part is non-empty. -/
theorem filter_join_extra_empty (hd : String) (hhd : hd ≠ "") (rest tail : List String) :
    joinWith "\n" (List.filter (fun s => decide (s ≠ "")) (hd :: rest) ++ [] ++ tail) ≠
      joinWith "\n" (List.filter (fun s => decide (s ≠ "")) (hd :: rest) ++ [""] ++ tail) := by
  intro h
  have hlen := congrArg String.length h
  rw [joinWith_length, joinWith_length] at hlen
  have hemp : ("" : String).length = 0 := rfl
  have hsep : ("\n" : String).length = 1 := rfl
  simp only [List.filter_cons, hhd, decide_not, if_true,
    Bool.not_false, Bool.not_true, List.append_nil, List.map_append, List.sum_append,
    List.length_append, List.map_cons, List.sum_cons, List.map_nil,
    List.sum_nil, List.length_nil, hemp, hsep, ite_true, ite_false, decide_False, decide_True,
    List.length_cons] at hlen
  omega

/-- Trimming a string whose first character is not whitespace never yields the
empty string. -/
theorem trimStr_ne_empty_of_headQ (s : String) (c : Char) (hch : s.data.head? = some c)
    (h : isWs c = false) : trimStr s ≠ "" := by
  intro hcon
  obtain ⟨rest, hdata⟩ : ∃ rest, s.data = c :: rest := by
    cases hd : s.data with
    | nil => rw [hd] at hch; simp at hch
    | cons a l =>
      rw [hd] at hch
      simp at hch
      exact ⟨l, by rw [hch]⟩
  have hnil : trimChars s.data = [] := by
    have : (trimStr s).data = ("" : String).data := by rw [hcon]
    simpa [trimStr] using this
  rw [hdata] at hnil
  unfold trimChars at hnil
  rw [List.dropWhile_cons] at hnil
  rw [h] at hnil
  simp only [Bool.false_eq_true, if_false] at hnil
  rw [List.reverse_eq_nil_iff, List.dropWhile_eq_nil_iff] at hnil
  have hcmem : c ∈ (c :: rest).reverse := by simp
  have := hnil c hcmem
  rw [h] at this
  exact absurd this (by simp)

/-- Claim C5: for a timestamp with a repeater (of positive count, as the data
model requires) and no end date, `includes_date(d)` holds iff the distance
from the start to `d`, measured in the repeater's unit (days; 7×days for
weeks; calendar month-count for months with the secondary day-of-month check;
calendar year-count for years with the secondary month+day check), is
non-negative and exactly divisible by the repeater count. -/
theorem includesDate_repeater_noEnd (ts : Timestamp) (r : Repeater) (d : NaiveDate)
    (hr : ts.repeater = some r) (he : ts.ending = none) (hc : 0 < r.count) :
    ts.includesDate d = true ↔
      (match r.unit with
      | .day => 0 ≤ d.sub ts.start.date ∧ (d.sub ts.start.date) % (r.count : Int) = 0
      | .week => 0 ≤ d.sub ts.start.date ∧
          (d.sub ts.start.date) % ((r.count * 7 : Nat) : Int) = 0
      | .month => 0 ≤ monthsCount d - monthsCount ts.start.date ∧
          (monthsCount d - monthsCount ts.start.date) % (r.count : Int) = 0 ∧
          ts.start.date.day0 ≤ d.day0
      | .year => 0 ≤ (d.yearCE : Int) - (ts.start.date.yearCE : Int) ∧
          ((d.yearCE : Int) - (ts.start.date.yearCE : Int)) % (r.count : Int) = 0 ∧
          mdOrdinal ts.start.date ≤ mdOrdinal d) := by
  obtain ⟨c, u⟩ := r
  cases u <;>
    simp only [Timestamp.includesDate, hr, he, inRangeMod, isSomeAnd, Option.map_none',
      Option.getD_none] <;>
    split_ifs <;>
    simp_all

/-- Witness for claim C5 at `<2024-01-02 +3m>`: the inclusion query confirms
`2024-04-02` and `2024-07-02` and rejects `2024-02-02` and `2024-03-01`. -/
theorem includesDate_repeater_noEnd_witness :
    tsMonthly3.includesDate ⟨daysFromCivil 2024 4 2⟩ = true ∧
    tsMonthly3.includesDate ⟨daysFromCivil 2024 7 2⟩ = true ∧
    tsMonthly3.includesDate ⟨daysFromCivil 2024 2 2⟩ = false ∧
    tsMonthly3.includesDate ⟨daysFromCivil 2024 3 1⟩ = false :=
  ⟨(includesDate_repeater_noEnd tsMonthly3 ⟨3, .month⟩ ⟨daysFromCivil 2024 4 2⟩ rfl rfl
      (by decide)).mpr (by decide),
   by decide, by decide, by decide⟩

/-- Claim C6: `get_next_repeat(after)` returns the start date whenever `after`
precedes it; otherwise, for day and week units (with a positive count), it
returns the smallest date on or after `after` reachable from the start by
whole multiples of the repeater's day-count. -/
theorem getNextRepeat_before_start_and_day_week (ts : Timestamp) (after : NaiveDate) :
    (after.days < ts.start.date.days →
      ts.getNextRepeat after = .val (some ts.start.date)) ∧
    (∀ r : Repeater, ts.repeater = some r → 0 < r.count →
      ¬ after.days < ts.start.date.days → ∀ dc : Nat,
      ((r.unit = .day ∧ dc = r.count) ∨ (r.unit = .week ∧ dc = r.count * 7)) →
      ∃ k : Nat,
        ts.getNextRepeat after = .val (some (ts.start.date.addDays ((k * dc : Nat) : Int))) ∧
        after.days ≤ ts.start.date.days + ((k * dc : Nat) : Int) ∧
        ∀ j : Nat, after.days ≤ ts.start.date.days + ((j * dc : Nat) : Int) → k ≤ j) := by
  constructor
  · intro h
    simp only [Timestamp.getNextRepeat, if_pos h]
  · intro r hr hc hlt dc hdc
    have hD : after.days = ts.start.date.days +
        (((after.sub ts.start.date).toNat : Nat) : Int) := by
      simp only [NaiveDate.sub]
      omega
    have hgoal : ∀ res : PanicOr (Option NaiveDate),
        (0 < dc) →
        ((after.sub ts.start.date).toNat % dc = 0 → res = .val (some after)) →
        (¬ (after.sub ts.start.date).toNat % dc = 0 →
          res = .val (some (ts.start.date.addDays
            ((dc * ((after.sub ts.start.date).toNat / dc + 1) : Nat) : Int)))) →
        ∃ k : Nat,
          res = .val (some (ts.start.date.addDays ((k * dc : Nat) : Int))) ∧
          after.days ≤ ts.start.date.days + ((k * dc : Nat) : Int) ∧
          ∀ j : Nat, after.days ≤ ts.start.date.days + ((j * dc : Nat) : Int) → k ≤ j := by
      intro res hdc0 hres0 hres1
      have hdm := Nat.div_add_mod (after.sub ts.start.date).toNat dc
      have hrem := Nat.mod_lt (after.sub ts.start.date).toNat hdc0
      by_cases hm : (after.sub ts.start.date).toNat % dc = 0
      · have e1 : (after.sub ts.start.date).toNat / dc * dc =
            dc * ((after.sub ts.start.date).toNat / dc) := Nat.mul_comm _ _
        have e3 : (after.sub ts.start.date).toNat / dc * dc =
            (after.sub ts.start.date).toNat := by omega
        refine ⟨(after.sub ts.start.date).toNat / dc, ?_, ?_, ?_⟩
        · rw [hres0 hm]
          have hdays : (ts.start.date.addDays
              (((after.sub ts.start.date).toNat / dc * dc : Nat) : Int)).days =
              after.days := by
            simp only [NaiveDate.addDays]
            rw [e3]
            omega
          rw [NaiveDate.eqOfDays hdays]
        · rw [e3]
          omega
        · intro j hj
          have hjD : (after.sub ts.start.date).toNat ≤ j * dc := by omega
          refine Nat.le_of_mul_le_mul_right ?_ hdc0
          omega
      · have e1 : ((after.sub ts.start.date).toNat / dc) * dc =
            dc * ((after.sub ts.start.date).toNat / dc) := Nat.mul_comm _ _
        have e2 : ((after.sub ts.start.date).toNat / dc + 1) * dc =
            ((after.sub ts.start.date).toNat / dc) * dc + dc := by ring
        have e4 : dc * ((after.sub ts.start.date).toNat / dc + 1) =
            ((after.sub ts.start.date).toNat / dc + 1) * dc := Nat.mul_comm _ _
        refine ⟨(after.sub ts.start.date).toNat / dc + 1, ?_, ?_, ?_⟩
        · rw [hres1 hm]
          rw [e4]
        · have hlt2 : (after.sub ts.start.date).toNat <
              ((after.sub ts.start.date).toNat / dc + 1) * dc := by omega
          omega
        · intro j hj
          have hjD : (after.sub ts.start.date).toNat ≤ j * dc := by omega
          by_contra hcon
          push_neg at hcon
          have hjle : j ≤ (after.sub ts.start.date).toNat / dc := by omega
          have h1 : j * dc ≤ ((after.sub ts.start.date).toNat / dc) * dc :=
            Nat.mul_le_mul_right dc hjle
          omega
    rcases hdc with ⟨hu, hdceq⟩ | ⟨hu, hdceq⟩ <;> subst hdceq
    · refine hgoal _ hc ?_ ?_ <;> intro hm <;>
        simp only [Timestamp.getNextRepeat, if_neg hlt, hr, hu]
      · rw [if_pos hm]
      · rw [if_neg hm]
    · refine hgoal _ (by omega) ?_ ?_ <;> intro hm <;>
        simp only [Timestamp.getNextRepeat, if_neg hlt, hr, hu]
      · rw [if_pos hm]
      · rw [if_neg hm]

/-- Witness for claim C6 at `<2024-01-01 Mon +3w>`:
`get_next_repeat(2024-01-03) = 2024-01-22`,
`get_next_repeat(2024-01-23) = 2024-02-12`, and a query date before the start
returns the start date. -/
theorem getNextRepeat_weekly_witness :
    tsWeekly3.getNextRepeat ⟨daysFromCivil 2024 1 3⟩ =
      .val (some ⟨daysFromCivil 2024 1 22⟩) ∧
    tsWeekly3.getNextRepeat ⟨daysFromCivil 2024 1 23⟩ =
      .val (some ⟨daysFromCivil 2024 2 12⟩) ∧
    tsWeekly3.getNextRepeat ⟨daysFromCivil 2023 12 25⟩ =
      .val (some tsWeekly3.start.date) :=
  ⟨by decide, by decide,
   (getNextRepeat_before_start_and_day_week tsWeekly3 ⟨daysFromCivil 2023 12 25⟩).1
     (by decide)⟩

/-- Claim C7: a heading node (level > 0) with no body serializes differently
from the same node with a single empty body line, for every format and
keyword capability; and parsing shows the two source shapes produce exactly
those two body values (`None` for no body line, `Some("")` for one blank line
before the next heading). -/
theorem body_presence_distinction :
    (∀ (K : Type) (cap : KeywordCap K) (fmt : Format) (data : NodeData K)
        (children : List (Node K)), 0 < data.level →
        Node.intoString cap fmt (.mk { data with body := none } children) ≠
          Node.intoString cap fmt (.mk { data with body := some "" } children)) ∧
    parsedBodies (Document.fromStr customKeywordCap "* A\n* B" Format.org) =
      some [none, none] ∧
    parsedBodies (Document.fromStr customKeywordCap "* A\n\n* B" Format.org) =
      some [some "", none] := by
  refine ⟨?_, by decide, by decide⟩
  intro K cap fmt data children hlevel
  simp only [Node.intoString, if_pos hlevel]
  refine filter_join_extra_empty _ ?_ _ _
  obtain ⟨n, hn⟩ : ∃ n, data.level = n + 1 := ⟨data.level - 1, by omega⟩
  refine trimStr_ne_empty_of_headQ _ fmt.headingChar ?_ (by cases fmt <;> rfl)
  simp [String.data_append, hn, List.replicate_succ]

/-- Witness for claim C7: a concrete level-1 node with no body serializes
differently from the same node with a single empty body line. -/
theorem body_presence_distinction_witness :
    Node.intoString customKeywordCap Format.org
        (.mk { level := 1, body := none } []) ≠
      Node.intoString customKeywordCap Format.org
        (.mk { level := 1, body := some "" } []) :=
  body_presence_distinction.1 CustomKeyword customKeywordCap Format.org { level := 1 } []
    (by decide)

/-- Claim C8: `add_child` appends the child and returns `Ok` iff the child's
level is strictly greater than the parent's; otherwise it returns the
`InvalidChildLevel` error (and, being non-mutating on error in this pure
model, leaves the parent unchanged).  Non-contiguous levels are accepted, as
the witness shows with a level-3 child under a level-1 parent. -/
theorem addChild_level_check {K : Type} (n child : Node K) :
    (n.data.level < child.data.level →
      n.addChild child = .ok (.mk n.data (n.children ++ [child]))) ∧
    (¬ n.data.level < child.data.level →
      n.addChild child = .error (.invalidChildLevel n.data.level child.data.level)) := by
  constructor <;> intro h <;> simp [Node.addChild, h]

/-- Witness for claim C8: a level-3 child is accepted directly under a level-1
parent. -/
theorem addChild_level_check_witness :
    (Node.mk ({ level := 1 } : NodeData CustomKeyword) []).addChild (.mk { level := 3 } []) =
      .ok (.mk { level := 1 } [.mk { level := 3 } []]) :=
  (addChild_level_check (Node.mk ({ level := 1 } : NodeData CustomKeyword) [])
    (.mk { level := 3 } [])).1 (by decide)

/-- Counterexample to claim C9 as stated: on a repeaterless timestamp whose
start date lies after the query date, `into_next_repeat_after` returns the
`Ok` variant (because `get_next_repeat` returns the start date before
consulting the repeater), not the `Err` variant. -/
theorem intoNextRepeatAfter_ok_counterexample :
    tsNoRepeat.intoNextRepeatAfter ⟨daysFromCivil 2024 1 1⟩ = .val (.ok tsNoRepeat) := by
  decide

/-- Claim C9 (amended): for a timestamp with no repeater,
`into_next_repeat_after(after)` returns `Err(self)` exactly when `after` is
not before the start date; when `after` precedes the start date it returns
`Ok` of a timestamp equal to the original. -/
theorem intoNextRepeatAfter_no_repeater (ts : Timestamp) (after : NaiveDate)
    (h : ts.repeater = none) :
    ts.intoNextRepeatAfter after =
      .val (if after.days < ts.start.date.days then Except.ok ts else Except.error ts) := by
  by_cases hlt : after.days < ts.start.date.days
  · rw [if_pos hlt]
    simp only [Timestamp.intoNextRepeatAfter, Timestamp.getNextRepeat, if_pos hlt]
    have hmap : ts.ending.map
        (fun e => (⟨ts.start.date.addDays (e.date.sub ts.start.date), e.time⟩ : DateTime)) =
        ts.ending := by
      cases ts.ending with
      | none => rfl
      | some e => simp [addDays_sub_self]
    rw [hmap]
  · rw [if_neg hlt]
    simp only [Timestamp.intoNextRepeatAfter, Timestamp.getNextRepeat, if_neg hlt, h]

/-- Witness for claim C9 (amended): a query date on/after the start of a
repeaterless timestamp yields the `Err` variant. -/
theorem intoNextRepeatAfter_no_repeater_witness :
    tsNoRepeat.intoNextRepeatAfter ⟨daysFromCivil 2024 1 5⟩ =
      .val (.error tsNoRepeat) := by
  have h := intoNextRepeatAfter_no_repeater tsNoRepeat ⟨daysFromCivil 2024 1 5⟩ rfl
  rw [h]
  decide

/-- Claim C10: a timestamp whose end is present, on the same date as the
start, and without a time of day serializes exactly like the same timestamp
with no end at all. -/
theorem intoString_sameDay_endless (ts : Timestamp) (e : DateTime)
    (he : ts.ending = some e) (hd : e.date = ts.start.date) (ht : e.time = none) :
    ts.intoString = Timestamp.intoString { ts with ending := none } := by
  simp [Timestamp.intoString, he, hd, ht]

/-- Witness for claim C10: `<2023-01-01>--<2023-01-01>` parses to a same-day
end-carrying timestamp and serializes as the single end-less timestamp
`<2023-01-01 Sun>`. -/
theorem intoString_sameDay_endless_witness :
    tsSameDay.intoString = Timestamp.intoString { tsSameDay with ending := none } ∧
    Timestamp.fromStrOk? "<2023-01-01>--<2023-01-01>" = some tsSameDay ∧
    tsSameDay.intoString = "<2023-01-01 Sun>" :=
  ⟨intoString_sameDay_endless tsSameDay ⟨⟨daysFromCivil 2023 1 1⟩, none⟩ rfl rfl rfl,
   by decide, by decide⟩

end Orgish
